import Mathlib

/-!
Verification of the BThome BLE advertisement parser
(`src/bthome_ble/parser.py`) against its natural-language specification.

The parser's byte-level core is shallowly embedded below: bytes are natural
numbers, Python byte strings are `List Nat`, Python floats are idealized as
exact rationals `ℚ`, and fallible operations return `Option`/`Except`.
Python exceptions that `_parse_bthome` does not catch are modelled by the
`Crash` error type.  The third-party AES-CCM primitive and the
`MEAS_TYPES` registry (defined in `const.py`, outside the sources) are
treated as parameters, the latter modelled from the spec's description of
the measurement registry.
-/

/-- Python `int.from_bytes(data_obj, "little", signed=False)`: a byte string
as a little-endian unsigned integer (first byte least significant). -/
def leBytes : List Nat → Nat
  | [] => 0
  | b :: rest => b + 256 * leBytes rest

/-- Python `int.from_bytes(data_obj, "little", signed=True)`: two's
complement, so values with the top bit set are negative; the empty byte
string gives 0. -/
def leBytesSigned (data : List Nat) : ℤ :=
  if leBytes data < 2 ^ (8 * data.length - 1) then (leBytes data : ℤ)
  else (leBytes data : ℤ) - 2 ^ (8 * data.length)

/-- Python `-int(f"{factor:e}".split("e")[-1])` (parser.py lines 49, 57,
65): the negated exponent of the scientific form of `factor`, i.e.
`-⌊log₁₀ |factor|⌋` for nonzero factors (idealizing away binary
floating-point formatting artifacts), and 0 for factor 0 (`0e+00`). -/
def decimal_places (factor : ℚ) : ℤ := -(Int.log 10 |factor|)

/-- Python `round` to an integer on an exact rational: nearest integer,
ties to the even neighbour (banker's rounding). -/
def roundHalfEven (x : ℚ) : ℤ :=
  if x - ⌊x⌋ < 1 / 2 then ⌊x⌋
  else if 1 / 2 < x - ⌊x⌋ then ⌊x⌋ + 1
  else if ⌊x⌋ % 2 = 0 then ⌊x⌋ else ⌊x⌋ + 1

/-- Python `round(x, dp)`: round to `dp` decimal places (`dp` may be
negative, rounding to tens, hundreds, ...). -/
def roundToPlaces (x : ℚ) (dp : ℤ) : ℚ := (roundHalfEven (x * 10 ^ dp) : ℚ) / 10 ^ dp

/-- `parse_uint` (parser.py lines 47-52): the bytes as a little-endian
unsigned integer times `factor`, rounded to `decimal_places factor`
decimal places.  Total: it never fails, also on the empty span. -/
def parse_uint (data_obj : List Nat) (factor : ℚ) : ℚ :=
  roundToPlaces ((leBytes data_obj : ℚ) * factor) (decimal_places factor)

/-- `parse_int` (parser.py lines 55-60): as `parse_uint` with a signed
(two's complement) interpretation. -/
def parse_int (data_obj : List Nat) (factor : ℚ) : ℚ :=
  roundToPlaces ((leBytesSigned data_obj : ℚ) * factor) (decimal_places factor)

/-- Decode a little-endian IEEE-754 bit pattern with `eb` exponent bits and
`mb` mantissa bits into an exact rational (covering `struct.unpack` with
formats `e`/`f`/`d`).  The all-ones exponent (infinities and NaNs, which ℚ
cannot represent) is mapped to 0; no claim below depends on the numeric
value of such patterns. -/
def ieeeToRat (eb mb : Nat) (bytes : List Nat) : ℚ :=
  let bits := leBytes bytes
  let man := bits % 2 ^ mb
  let ex := bits / 2 ^ mb % 2 ^ eb
  let sign := bits / 2 ^ (mb + eb) % 2
  let bias : ℤ := 2 ^ (eb - 1) - 1
  let mag : ℚ :=
    if ex = 0 then (man : ℚ) * (2 : ℚ) ^ (1 - bias - (mb : ℤ))
    else if ex = 2 ^ eb - 1 then 0
    else ((2 ^ mb + man : ℕ) : ℚ) * (2 : ℚ) ^ ((ex : ℤ) - bias - (mb : ℤ))
  if sign = 1 then -mag else mag

/-- `parse_float` (parser.py lines 63-75): `struct.unpack` of a
half (2 bytes), single (4 bytes) or double (8 bytes) precision
little-endian IEEE-754 float, scaled by `factor` and rounded like the
integer paths; any other byte length logs an error and returns `None`. -/
def parse_float (data_obj : List Nat) (factor : ℚ) : Option ℚ :=
  let dp := decimal_places factor
  if data_obj.length = 2 then some (roundToPlaces (ieeeToRat 5 10 data_obj * factor) dp)
  else if data_obj.length = 4 then some (roundToPlaces (ieeeToRat 8 23 data_obj * factor) dp)
  else if data_obj.length = 8 then some (roundToPlaces (ieeeToRat 11 52 data_obj * factor) dp)
  else none

/-- Strict UTF-8 decoding as performed by Python `bytes.decode("UTF-8")`,
returning the decoded code points, or `none` where Python raises
`UnicodeDecodeError`: rejects bytes 0x80-0xC1 and 0xF5-0xFF in lead
position, truncated sequences, bad continuation bytes, overlong encodings,
surrogates U+D800-U+DFFF and code points above U+10FFFF. -/
def utf8Decode : List Nat → Option (List Nat)
  | [] => some []
  | b :: rest =>
    if b < 0x80 then (utf8Decode rest).map (b :: ·)
    else if b < 0xC2 then none
    else if b < 0xE0 then
      match rest with
      | b1 :: rest1 =>
        if 0x80 ≤ b1 ∧ b1 < 0xC0 then
          (utf8Decode rest1).map (((b - 0xC0) * 0x40 + (b1 - 0x80)) :: ·)
        else none
      | _ => none
    else if b < 0xF0 then
      match rest with
      | b1 :: b2 :: rest2 =>
        let lo1 := if b = 0xE0 then 0xA0 else 0x80
        let hi1 := if b = 0xED then 0xA0 else 0xC0
        if (lo1 ≤ b1 ∧ b1 < hi1) ∧ 0x80 ≤ b2 ∧ b2 < 0xC0 then
          (utf8Decode rest2).map
            (((b - 0xE0) * 0x1000 + (b1 - 0x80) * 0x40 + (b2 - 0x80)) :: ·)
        else none
      | _ => none
    else if b < 0xF5 then
      match rest with
      | b1 :: b2 :: b3 :: rest3 =>
        let lo1 := if b = 0xF0 then 0x90 else 0x80
        let hi1 := if b = 0xF4 then 0x90 else 0xC0
        if (lo1 ≤ b1 ∧ b1 < hi1) ∧ (0x80 ≤ b2 ∧ b2 < 0xC0) ∧ 0x80 ≤ b3 ∧ b3 < 0xC0 then
          (utf8Decode rest3).map
            (((b - 0xF0) * 0x40000 + (b1 - 0x80) * 0x1000 + (b2 - 0x80) * 0x40 + (b3 - 0x80)) :: ·)
        else none
      | _ => none
    else none

/-- `parse_string` (parser.py lines 78-80): `data_obj.decode("UTF-8")`;
`none` models the `UnicodeDecodeError` that strict decoding raises on
invalid input — the function itself installs no error handling. -/
def parse_string (data_obj : List Nat) : Option (List Nat) :=
  utf8Decode data_obj

/-- `parse_mac` (parser.py lines 83-89): the reversed bytes for 6-byte
input (`data_obj[::-1]`), otherwise an error is logged and `None`
returned. -/
def parse_mac (data_obj : List Nat) : Option (List Nat) :=
  if data_obj.length = 6 then some data_obj.reverse else none

/-- Python slice `l[a:b]` for nonnegative bounds: clamps to the list
length and yields `[]` when `b ≤ a`. -/
def pySlice (l : List Nat) (a b : Nat) : List Nat := (l.drop a).take (b - a)

/-- The two attributes of a `MEAS_TYPES` registry entry that
`_parse_bthome` reads: `meas_type.meas_format` (the sensor description a
decoded value is reported under, kept abstract as a string) and
`meas_type.factor` (lines 217-218). -/
structure MeasType where
  meas_format : String
  factor : ℚ

/-- Modelled from the spec: the measurement registry `MEAS_TYPES` lives in
`bthome_ble/const.py`, which is not among the sources.  Per the spec it is
a static table used only as a pure lookup
`lookup(id) -> Option<MeasurementTypeEntry>`, so the decoder below is
parameterized over an arbitrary registry of that shape. -/
abbrev Registry := Nat → Option MeasType

/-- Modelled from the spec: the spec's scenario registry entry
`{id: 0x02, factor: 0.01}` (spec section 8).  The `meas_format` name is
not specified by the scenario and is irrelevant to the claims; a fixed
string is used. -/
def exampleRegistry : Registry := fun id =>
  if id = 2 then some ⟨"temperature", 1 / 100⟩ else none

/-- The uncaught Python exceptions that can escape the scanning loop of
`_parse_bthome`: an `IndexError` from reading `payload[payload_start + 1]`
out of range (line 205), and a `UnicodeDecodeError` from `parse_string`
(line 80, reached via line 227). -/
inductive Crash where
  | indexError
  | unicodeError
deriving DecidableEq

/-- Observable outcome of the scanning loop (parser.py lines 194-259):
`events` lists the `update_predefined_sensor(meas_format, meas_float)`
calls in order, `result` is the loop's `result` flag, and `truncated` is
true iff the loop ended through the invalid-payload-length `break`
(line 209) rather than by exhausting the buffer. -/
structure LoopResult where
  events : List (String × ℚ)
  result : Bool
  truncated : Bool

/-- Python truthiness of the `meas_float` variable: `None` and `0.0` are
falsy (line 229 `if meas_float:`). -/
def truthyFloat : Option ℚ → Bool
  | none => false
  | some v => decide (v ≠ 0)

/-- Python truthiness of the `meas_str` variable: `None` and the empty
string are falsy (line 232 `elif meas_str:`). -/
def truthyStr : Option (List Nat) → Bool
  | none => false
  | some s => decide (s ≠ [])

/-- The body of one scanning-loop iteration (parser.py lines 211-258) once
the control byte `c` and the measurement-id byte `m` have been read, acting
on the accumulated sensor updates `acc` and `result` flag `res`; `start`
is the `payload_start` cursor.  Both log-only branches (unknown
measurement type, unknown data format) and the dataFormat-4 branch (whose
`parse_mac` result is bound to the unused local `bthome_ble_mac`) leave
the state unchanged. -/
def processRecord (reg : Registry) (payload : List Nat) (start c m : Nat)
    (acc : List (String × ℚ)) (res : Bool) :
    Except Crash (List (String × ℚ) × Bool) :=
  let obj_data_length := c % 32
  let obj_data_format := c / 32 % 8
  let next_start := start + 1 + obj_data_length
  if obj_data_length ≠ 0 then
    if obj_data_format ≤ 3 then
      match reg m with
      | some meas_type =>
        let meas_data := pySlice payload (start + 2) next_start
        let decoded : Except Crash (Option ℚ × Option (List Nat)) :=
          if obj_data_format = 0 then .ok (some (parse_uint meas_data meas_type.factor), none)
          else if obj_data_format = 1 then .ok (some (parse_int meas_data meas_type.factor), none)
          else if obj_data_format = 2 then .ok (parse_float meas_data meas_type.factor, none)
          else
            match parse_string meas_data with
            | some s => .ok (none, some s)
            | none => .error .unicodeError
        match decoded with
        | .error e => .error e
        | .ok (meas_float, meas_str) =>
          if truthyFloat meas_float then
            .ok (acc ++ [(meas_type.meas_format, meas_float.getD 0)], true)
          else if truthyStr meas_str then
            .ok (acc, res)
          else
            .ok (acc, res)
      | none => .ok (acc, res)
    else if obj_data_format = 4 then
      let _data_mac := parse_mac (pySlice payload (start + 1) next_start)
      .ok (acc, res)
    else .ok (acc, res)
  else .ok (acc, res)

/-- The scanning loop of `_parse_bthome` (parser.py lines 198-259) as a
function of the cursor `payload_start`: while at least one byte remains,
read the control byte, read the measurement-id byte — a read Python
performs before any bounds check, raising `IndexError` when only one byte
remains — then `break` when fewer than `1 + obj_data_length` further bytes
exist, otherwise process the record and advance to `next_start`. -/
def parseLoop (reg : Registry) (payload : List Nat) (start : Nat)
    (acc : List (String × ℚ)) (res : Bool) : Except Crash LoopResult :=
  if _h : start + 1 ≤ payload.length then
    match payload[start]?, payload[start + 1]? with
    | some c, some m =>
      if payload.length < start + 1 + c % 32 then .ok ⟨acc, res, true⟩
      else
        match processRecord reg payload start c m acc res with
        | .error e => .error e
        | .ok (acc2, res2) => parseLoop reg payload (start + 1 + c % 32) acc2 res2
    | _, _ => .error .indexError
  else .ok ⟨acc, res, false⟩
termination_by payload.length - start
decreasing_by omega

/-- Lines 194-197 followed by the scanning loop: `payload_start = 0`,
`result = False`, no sensor updates yet. -/
def parsePayload (reg : Registry) (payload : List Nat) : Except Crash LoopResult :=
  parseLoop reg payload 0 [] false

/-- The arguments of the single AES-CCM invocation in `_decrypt_bthome`
(parser.py lines 291-296): `AES.new(key, AES.MODE_CCM, nonce=nonce,
mac_len=4)`, `cipher.update(aad)`, `decrypt_and_verify(ciphertext, tag)`. -/
structure CCMCall where
  key : List Nat
  nonce : List Nat
  aad : List Nat
  mac_len : Nat
  ciphertext : List Nat
  tag : List Nat

/-- An AES-CCM decrypt-and-verify oracle; `none` models the `ValueError`
Cryptodome raises when tag verification fails.  AES itself is third-party
library code outside this repository, so the decryptor is parameterized
over it. -/
abbrev CCMOracle := CCMCall → Option (List Nat)

/-- Python truthiness of `self.bindkey` (line 268 `if not self.bindkey:`):
falsy when the key is `None` or the empty byte string. -/
def bindkeyFalsy : Option (List Nat) → Bool
  | none => true
  | some k => decide (k = [])

/-- The CCM call `_decrypt_bthome` builds for payload `data` and source MAC
`bthome_mac` (parser.py lines 283-296): ciphertext `data[:-8]`, counter
`data[-8:-4]`, tag (`mic`) `data[-4:]`, nonce the MAC followed by the
little-endian 16-bit service identifier `0x181E` (`b"\x1e\x18"`) followed
by the counter, associated data the single byte `0x11`, 4-byte tag. -/
def decryptCall (key data bthome_mac : List Nat) : CCMCall :=
  { key := key
    nonce := bthome_mac ++ [0x1e, 0x18] ++ pySlice data (data.length - 8) (data.length - 4)
    aad := [0x11]
    mac_len := 4
    ciphertext := pySlice data 0 (data.length - 8)
    tag := pySlice data (data.length - 4) data.length }

/-- Result of `_decrypt_bthome`: `result` is the returned plaintext, with
`.error ()` for `raise ValueError`; `bindkey_verified` is the updated
per-device flag; `call` is the CCM invocation made, if control reached
it. -/
structure DecryptOutcome where
  result : Except Unit (List Nat)
  bindkey_verified : Bool
  call : Option CCMCall

/-- `_decrypt_bthome` (parser.py lines 266-313), parameterized over the
AES oracle and the incoming `bindkey_verified` flag `v0`.  A `None` return
from `decrypt_and_verify` (line 304) cannot occur with Cryptodome and is
modelled together with the verification `ValueError` (line 297), both
setting `bindkey_verified` to `False` and raising.  Note that the
short-payload branch (line 279) raises without touching the flag, and that
the redundant second key check (line 273) repeats the falsiness test
before the length test. -/
def decrypt_bthome (ccm : CCMOracle) (bindkey : Option (List Nat)) (v0 : Bool)
    (data bthome_mac : List Nat) : DecryptOutcome :=
  if bindkeyFalsy bindkey then ⟨.error (), false, none⟩
  else if bindkeyFalsy bindkey || decide ((bindkey.getD []).length ≠ 16) then
    ⟨.error (), false, none⟩
  else if data.length < 15 then ⟨.error (), v0, none⟩
  else
    let call := decryptCall (bindkey.getD []) data bthome_mac
    match ccm call with
    | none => ⟨.error (), false, some call⟩
    | some pt => ⟨.ok pt, true, some call⟩

/-- The full 128-bit UUID the non-encrypted BThome format advertises
(parser.py line 175). -/
def plain_service_uuid : String := "0000181c-0000-1000-8000-00805f9b34fb"

/-- The full 128-bit UUID the encrypted BThome format advertises
(parser.py line 181). -/
def encrypted_service_uuid : String := "0000181e-0000-1000-8000-00805f9b34fb"

/-- Outcome of `_parse_bthome` from the service-UUID dispatch onward:
`notApplicable` is the `return False` of the final `else` (line 192, no
decryption attempted and nothing scanned), `decryptFailed` the
`return False` from the caught `ValueError`/`TypeError` (line 188), `done`
a completed scan together with the final `bindkey_verified` flag, and
`crashed` an uncaught exception escaping the loop. -/
inductive BthomeOutcome where
  | notApplicable
  | decryptFailed (bindkey_verified : Bool)
  | done (r : LoopResult) (bindkey_verified : Bool)
  | crashed (c : Crash)

/-- `_parse_bthome` (parser.py lines 152-264) from the service-UUID
dispatch (line 174) onward.  The preceding address/name bookkeeping
(lines 156-172), the device-metadata setters, and the unused `packet_id`
local (line 190) do not affect the decoded data and are omitted.  The
dispatch compares `service_info.service_uuids` against the two singleton
lists with `==`. -/
def parse_bthome (reg : Registry) (ccm : CCMOracle) (bindkey : Option (List Nat))
    (v0 : Bool) (source_mac : List Nat) (service_uuids : List String)
    (data : List Nat) : BthomeOutcome :=
  if service_uuids = [plain_service_uuid] then
    match parsePayload reg data with
    | .ok st => .done st v0
    | .error c => .crashed c
  else if service_uuids = [encrypted_service_uuid] then
    let d := decrypt_bthome ccm bindkey v0 data source_mac
    match d.result with
    | .error _ => .decryptFailed d.bindkey_verified
    | .ok payload =>
      match parsePayload reg payload with
      | .ok st => .done st d.bindkey_verified
      | .error c => .crashed c
  else .notApplicable

/-! ## Helper lemmas -/

/-- Rounding an exact integer changes nothing. -/
theorem roundHalfEven_intCast (n : ℤ) : roundHalfEven (n : ℚ) = n := by
  simp [roundHalfEven]

/-- Rounding moves a rational by at most one half. -/
theorem abs_roundHalfEven_sub_le (x : ℚ) : |(roundHalfEven x : ℚ) - x| ≤ 1 / 2 := by
  have h0 : (⌊x⌋ : ℚ) ≤ x := Int.floor_le x
  have h1 : x < ⌊x⌋ + 1 := Int.lt_floor_add_one x
  rw [roundHalfEven]
  split_ifs with hlt hgt heven <;> rw [abs_le] <;> push_cast <;> constructor <;> linarith

/-- The factor 0.01 implies rounding to 2 decimal places. -/
theorem decimal_places_hundredth : decimal_places (100⁻¹ : ℚ) = 2 := by
  have h : |(100⁻¹ : ℚ)| = ((10 : ℕ) : ℚ) ^ (-2 : ℤ) := by norm_num
  rw [decimal_places, h, Int.log_zpow (by norm_num : (1 : ℕ) < 10)]
  decide

/-- Closed-form evaluation of `parse_uint` when the scaled value times
`10 ^ dp` is an exact integer `n`. -/
theorem parse_uint_eval (data : List Nat) (f : ℚ) (dp n : ℤ)
    (hdp : decimal_places f = dp)
    (h : (leBytes data : ℚ) * f * 10 ^ dp = (n : ℚ)) :
    parse_uint data f = (n : ℚ) / 10 ^ dp := by
  rw [parse_uint, hdp, roundToPlaces, h, roundHalfEven_intCast]

/-- `parse_uint` of the scenario bytes `C4 09` at factor 0.01 is 25. -/
theorem parse_uint_scenario : parse_uint [0xC4, 0x09] (100⁻¹ : ℚ) = 25 := by
  rw [parse_uint_eval [0xC4, 0x09] (100⁻¹ : ℚ) 2 2500 decimal_places_hundredth
    (by norm_num [leBytes])]
  norm_num

/-- `parse_uint` of zero bytes at factor 0.01 is 0. -/
theorem parse_uint_zero : parse_uint [0x00, 0x00] (100⁻¹ : ℚ) = 0 := by
  rw [parse_uint_eval [0x00, 0x00] (100⁻¹ : ℚ) 2 0 decimal_places_hundredth
    (by norm_num [leBytes])]
  norm_num

/-- Truthiness of a known-nonzero decoded number. -/
theorem truthyFloat_some_ne (v : ℚ) (h : v ≠ 0) : truthyFloat (some v) = true := by
  simp [truthyFloat, h]

/-- Truthiness of a decoded zero: falsy. -/
theorem truthyFloat_some_zero : truthyFloat (some 0) = false := by
  simp [truthyFloat]

/-- A binding for the measurement-id byte puts its index inside the
buffer. -/
theorem length_of_getElem? {l : List Nat} {i : Nat} {a : Nat}
    (h : l[i]? = some a) : i < l.length := by
  obtain ⟨hlt, -⟩ := List.getElem?_eq_some_iff.mp h
  exact hlt

/-- `meas_float` of `None`: falsy. -/
theorem truthyFloat_none : truthyFloat none = false := rfl

/-- `meas_str` of `None`: falsy. -/
theorem truthyStr_none : truthyStr none = false := rfl

/-- `parse_float` on an unsupported byte width returns `None`. -/
theorem parse_float_bad_width (data : List Nat) (f : ℚ)
    (h2 : data.length ≠ 2) (h4 : data.length ≠ 4) (h8 : data.length ≠ 8) :
    parse_float data f = none := by
  simp [parse_float, h2, h4, h8]

/-- `parse_mac` on any length other than 6 returns `None`. -/
theorem parse_mac_bad_length (data : List Nat) (h : data.length ≠ 6) :
    parse_mac data = none := by
  simp [parse_mac, h]

/-! ## Claims -/

/-- Claim C1, counterexample: on the spec's own scenario payload `00 02`
the loop does not terminate cleanly after one two-byte record.  The
zero-length record consumes a single byte (not two), and the next
iteration, started at the leftover byte `02`, reads `payload[2]` out of
range, raising `IndexError`. -/
theorem c1_counterexample :
    parsePayload exampleRegistry [0x00, 0x02] = .error .indexError := by
  simp [parsePayload, parseLoop, processRecord]

/-- Claim C1 (amended): for every record whose control byte and
measurement-id byte are both inside the buffer, the decoder advances its
cursor by exactly `1 + dataLength` bytes (one control byte plus
`dataLength` bytes, which count the measurement-id byte) — in particular a
zero-length record consumes exactly 1 byte — and whenever
`offset + 1 + dataLength` exceeds the buffer length, the loop stops, the
truncated flag is set, and all records decoded before that point are
returned without any error being raised. -/
theorem c1_step_and_truncation (reg : Registry) (payload : List Nat)
    (start : Nat) (acc : List (String × ℚ)) (res : Bool) (c m : Nat)
    (hc : payload[start]? = some c) (hm : payload[start + 1]? = some m) :
    (payload.length < start + 1 + c % 32 →
      parseLoop reg payload start acc res = .ok ⟨acc, res, true⟩) ∧
    (start + 1 + c % 32 ≤ payload.length →
      parseLoop reg payload start acc res =
        match processRecord reg payload start c m acc res with
        | .error e => .error e
        | .ok (acc2, res2) => parseLoop reg payload (start + 1 + c % 32) acc2 res2) := by
  have hlen : start + 1 ≤ payload.length := le_of_lt (length_of_getElem? hm)
  constructor <;> intro h
  · rw [parseLoop]
    simp only [hc, hm, dif_pos hlen]
    rw [if_pos h]
  · rw [parseLoop]
    simp only [hc, hm, dif_pos hlen]
    rw [if_neg (by omega)]

/-- Claim C1, witness: the amended step law applied at the concrete
payload `00 02` and cursor 0: the truncation guard does not fire there and
the loop performs one record step advancing the cursor from 0 to
`0 + 1 + 0` = 1. -/
theorem c1_witness :
    parseLoop exampleRegistry [0x00, 0x02] 0 [] false =
      match processRecord exampleRegistry [0x00, 0x02] 0 0x00 0x02 [] false with
      | .error e => .error e
      | .ok (acc2, res2) =>
        parseLoop exampleRegistry [0x00, 0x02] (0 + 1 + 0x00 % 32) acc2 res2 :=
  (c1_step_and_truncation exampleRegistry [0x00, 0x02] 0 [] false 0x00 0x02
    rfl rfl).2 (by decide)

/-- Claim C2, the failing input evaluated: a buffer of length 1 crashes.
The loop condition `payload_length >= payload_start + 1` admits a lone
trailing byte, and the unconditional read of `payload[payload_start + 1]`
(line 205, before the length check of line 207) then raises `IndexError`
for every registry; a length-0 buffer, by contrast, ends cleanly. -/
theorem c2_one_byte_crash (reg : Registry) :
    parsePayload reg [0x00] = .error .indexError ∧
    parsePayload reg [] = .ok ⟨[], false, false⟩ := by
  constructor <;> simp [parsePayload, parseLoop]

/-- Claim C3, counterexample: a record with registry-known id 0x02 whose
payload decodes under dataFormat 0 to the number 0 — payload `03 02 00 00`
— is not appended: `if meas_float:` is false for `0.0`, so the scan ends
with no sensor update and `result = False`, where the claim promises an
appended `(id, 0)` pair. -/
theorem c3_counterexample :
    parsePayload exampleRegistry [0x03, 0x02, 0x00, 0x00] = .ok ⟨[], false, false⟩ := by
  simp [parsePayload, parseLoop, processRecord, exampleRegistry, pySlice,
    parse_uint_zero, truthyFloat_some_zero, truthyStr]

/-- Claim C5, counterexample: the spec's scenario payload `02 02 C4 09`
does not decode to a single 25.00 measurement.  Because the wire-format
data length counts the measurement-id byte, control byte 0x02 delimits
only the single value byte `C4` (decoded as 1.96), and the next iteration
starts on the leftover byte `09` and reads `payload[4]` out of range,
raising `IndexError`. -/
theorem c5_counterexample :
    parsePayload exampleRegistry [0x02, 0x02, 0xC4, 0x09] = .error .indexError := by
  simp [parsePayload, parseLoop, processRecord, exampleRegistry, pySlice]
  split_ifs <;> rfl

/-- Claim C5 (amended): in the wire format the data length counts the
measurement-id byte, so the 25.00-degree scenario payload is `03 02 C4 09`
(control byte 0x03 → dataLength 3, dataFormat 0): against the registry
entry `{id: 0x02, factor: 0.01}` it decodes to exactly one measurement of
value 25 (bytes `C4 09` little-endian = 2500, times 0.01), sets the
result flag, and the loop terminates without error or truncation. -/
theorem c5_amended :
    parsePayload exampleRegistry [0x03, 0x02, 0xC4, 0x09] =
      .ok ⟨[("temperature", 25)], true, false⟩ := by
  simp [parsePayload, parseLoop, processRecord, exampleRegistry, pySlice,
    parse_uint_scenario, truthyFloat_some_ne 25 (by norm_num)]

/-- Claim C3 (amended): for a record with a registry-known measurement id
and nonzero data length, dataFormat 0 and 1 append the decoded pair
`(meas_format, value)` and set the result flag exactly when the decoded
number is nonzero — a decoded 0 is discarded by the `if meas_float:`
truthiness test; a dataFormat-2 record behaves the same way when
`parse_float` succeeds; a successfully decoded dataFormat-3 string is only
logged ("String data type not supported yet") and never appended; and a
dataFormat-4 record parses a MAC into an unused local and appends
nothing. -/
theorem c3_decode_dispositions (reg : Registry) (payload : List Nat)
    (start c m : Nat) (acc : List (String × ℚ)) (res : Bool) (mt : MeasType)
    (hreg : reg m = some mt) (hdl : c % 32 ≠ 0) :
    (c / 32 % 8 = 0 →
      processRecord reg payload start c m acc res =
        .ok (if parse_uint (pySlice payload (start + 2) (start + 1 + c % 32)) mt.factor ≠ 0 then
            (acc ++ [(mt.meas_format,
              parse_uint (pySlice payload (start + 2) (start + 1 + c % 32)) mt.factor)], true)
          else (acc, res))) ∧
    (c / 32 % 8 = 1 →
      processRecord reg payload start c m acc res =
        .ok (if parse_int (pySlice payload (start + 2) (start + 1 + c % 32)) mt.factor ≠ 0 then
            (acc ++ [(mt.meas_format,
              parse_int (pySlice payload (start + 2) (start + 1 + c % 32)) mt.factor)], true)
          else (acc, res))) ∧
    (∀ v, c / 32 % 8 = 2 →
      parse_float (pySlice payload (start + 2) (start + 1 + c % 32)) mt.factor = some v →
      processRecord reg payload start c m acc res =
        .ok (if v ≠ 0 then (acc ++ [(mt.meas_format, v)], true) else (acc, res))) ∧
    (∀ s, c / 32 % 8 = 3 →
      parse_string (pySlice payload (start + 2) (start + 1 + c % 32)) = some s →
      processRecord reg payload start c m acc res = .ok (acc, res)) ∧
    (c / 32 % 8 = 4 → processRecord reg payload start c m acc res = .ok (acc, res)) := by
  refine ⟨fun hfmt => ?_, fun hfmt => ?_, fun v hfmt hv => ?_, fun s hfmt hv => ?_,
    fun hfmt => ?_⟩
  · simp [processRecord, hreg, hfmt, hdl, truthyFloat, truthyStr, apply_ite]
  · simp [processRecord, hreg, hfmt, hdl, truthyFloat, truthyStr, apply_ite]
  · simp [processRecord, hreg, hfmt, hdl, hv, truthyFloat, truthyStr, apply_ite]
  · simp [processRecord, hreg, hfmt, hdl, hv, truthyFloat, truthyStr]
  · simp [processRecord, hfmt, hdl]

/-- Claim C3, witness: the amended law at the concrete record
`03 02 C4 09` (dataFormat 0, known id 0x02, value 2500·0.01 = 25 ≠ 0):
the pair is appended and the result flag set. -/
theorem c3_witness :
    processRecord exampleRegistry [0x03, 0x02, 0xC4, 0x09] 0 0x03 0x02 [] false =
      .ok ([("temperature", 25)], true) := by
  have h := (c3_decode_dispositions exampleRegistry [0x03, 0x02, 0xC4, 0x09] 0 0x03 0x02
    [] false ⟨"temperature", 1 / 100⟩ rfl (by decide)).1 (by decide)
  rw [h, show pySlice [0x03, 0x02, 0xC4, 0x09] 2 (0 + 1 + 0x03 % 32) = [0xC4, 0x09] from rfl,
    show (MeasType.mk "temperature" (1 / 100)).factor = (100⁻¹ : ℚ) by norm_num,
    parse_uint_scenario]
  norm_num

/-- Claim C4, the failing input evaluated, with the recoverable failure
modes alongside: a dataFormat-3 record with registry-known id and invalid
UTF-8 payload (`62 02 FF`) makes `parse_string` raise `UnicodeDecodeError`,
which nothing in `_parse_bthome` catches — the scan aborts — while the
other per-record failures are indeed non-fatal and a later well-formed
record still decodes: an unknown measurement id (`03 99 00 00 ...`), a
dataFormat 5-7 control byte (`A3 02 00 00 ...`), an unsupported float
width (`42 02 00 ...`, one value byte), and an invalid MAC length
(`82 02 00 ...`) are each skipped, after which `03 02 C4 09` still
produces its 25.00 measurement. -/
theorem c4_utf8_crash_other_failures_recoverable :
    parsePayload exampleRegistry [0x62, 0x02, 0xFF] = .error .unicodeError ∧
    parsePayload exampleRegistry [0x03, 0x99, 0x00, 0x00, 0x03, 0x02, 0xC4, 0x09] =
      .ok ⟨[("temperature", 25)], true, false⟩ ∧
    parsePayload exampleRegistry [0xA3, 0x02, 0x00, 0x00, 0x03, 0x02, 0xC4, 0x09] =
      .ok ⟨[("temperature", 25)], true, false⟩ ∧
    parsePayload exampleRegistry [0x42, 0x02, 0x00, 0x03, 0x02, 0xC4, 0x09] =
      .ok ⟨[("temperature", 25)], true, false⟩ ∧
    parsePayload exampleRegistry [0x82, 0x02, 0x00, 0x03, 0x02, 0xC4, 0x09] =
      .ok ⟨[("temperature", 25)], true, false⟩ := by
  have hff : parse_string [0xFF] = none := rfl
  have h25 : truthyFloat (some 25) = true := truthyFloat_some_ne 25 (by norm_num)
  refine ⟨?_, ?_, ?_, ?_, ?_⟩ <;>
    simp [parsePayload, parseLoop, processRecord, exampleRegistry, pySlice,
      hff, h25, parse_uint_scenario, truthyFloat_none, truthyStr_none,
      parse_float_bad_width, parse_mac_bad_length]

/-- Claim C9: `parse_float` returns a decoded number exactly for byte
spans of length 2, 4 or 8 (half, single, double precision); every other
length deterministically yields `None` (the logged unsupported-width
error) and no value. -/
theorem c9_parse_float_width_dispatch (data : List Nat) (f : ℚ) :
    (parse_float data f).isSome = true ↔
      (data.length = 2 ∨ data.length = 4 ∨ data.length = 8) := by
  rw [parse_float]
  split_ifs <;> simp_all

/-- Claim C10: an advertisement is recognized only when its service-UUID
list is exactly the one-element plain list or exactly the one-element
encrypted list; any other list — in particular a BThome identifier
together with any additional UUID — makes `_parse_bthome` return False
(not applicable) without decrypting or decoding anything. -/
theorem c10_unrecognized_uuid_list (reg : Registry) (ccm : CCMOracle)
    (bindkey : Option (List Nat)) (v0 : Bool) (source_mac : List Nat)
    (service_uuids : List String) (data : List Nat)
    (h1 : service_uuids ≠ [plain_service_uuid])
    (h2 : service_uuids ≠ [encrypted_service_uuid]) :
    parse_bthome reg ccm bindkey v0 source_mac service_uuids data = .notApplicable := by
  rw [parse_bthome, if_neg h1, if_neg h2]

/-- Claim C10, witness: a list carrying the plain BThome identifier
together with an additional UUID is not recognized, even over a payload
that would decode on its own. -/
theorem c10_witness :
    parse_bthome exampleRegistry (fun _ => none) none false []
      [plain_service_uuid, encrypted_service_uuid] [0x03, 0x02, 0xC4, 0x09] =
      .notApplicable :=
  c10_unrecognized_uuid_list exampleRegistry (fun _ => none) none false []
    [plain_service_uuid, encrypted_service_uuid] [0x03, 0x02, 0xC4, 0x09]
    (by simp) (by simp [plain_service_uuid, encrypted_service_uuid])

/-- Claim C6: `_decrypt_bthome` fails (raises `ValueError`) exactly when
the key is missing or falsy, the key length differs from 16, the encrypted
payload is shorter than 15 bytes, or CCM tag verification fails; whenever
tag verification fails the per-device `bindkey_verified` flag is set to
false; and whenever decryption succeeds the flag is set to true and the
plaintext is handed unchanged to the scanning loop of `_parse_bthome`. -/
theorem c6_decrypt_failure_and_flag (reg : Registry) (ccm : CCMOracle)
    (bindkey : Option (List Nat)) (v0 : Bool) (data source_mac : List Nat) :
    ((decrypt_bthome ccm bindkey v0 data source_mac).result = .error () ↔
      (bindkeyFalsy bindkey = true ∨ (bindkey.getD []).length ≠ 16 ∨
        data.length < 15 ∨ ccm (decryptCall (bindkey.getD []) data source_mac) = none)) ∧
    (bindkeyFalsy bindkey = false → (bindkey.getD []).length = 16 →
      15 ≤ data.length → ccm (decryptCall (bindkey.getD []) data source_mac) = none →
      (decrypt_bthome ccm bindkey v0 data source_mac).bindkey_verified = false) ∧
    (∀ pt, bindkeyFalsy bindkey = false → (bindkey.getD []).length = 16 →
      15 ≤ data.length → ccm (decryptCall (bindkey.getD []) data source_mac) = some pt →
      (decrypt_bthome ccm bindkey v0 data source_mac).result = .ok pt ∧
      (decrypt_bthome ccm bindkey v0 data source_mac).bindkey_verified = true ∧
      parse_bthome reg ccm bindkey v0 source_mac [encrypted_service_uuid] data =
        (match parsePayload reg pt with
         | .ok st => .done st true
         | .error c => .crashed c)) := by
  refine ⟨?_, ?_, ?_⟩
  · rw [decrypt_bthome]
    split_ifs with h1 h2 h3
    · simp [h1]
    · have hb : bindkeyFalsy bindkey = false := by
        cases hbb : bindkeyFalsy bindkey
        · rfl
        · exact absurd hbb h1
      rw [hb] at h2
      simp only [Bool.false_or, decide_eq_true_eq] at h2
      simp [h2]
    · simp [h3]
    · have hb : bindkeyFalsy bindkey = false := by
        cases hbb : bindkeyFalsy bindkey
        · rfl
        · exact absurd hbb h1
      rw [hb] at h2
      simp only [Bool.not_eq_true, Bool.false_or, decide_eq_false_iff_not, not_not] at h2
      cases hc : ccm (decryptCall (bindkey.getD []) data source_mac) <;>
        simp [hc, hb, h2, h3]
  · intro hb hk hd hc
    rw [decrypt_bthome, if_neg (by simp [hb]), if_neg (by simp [hb, hk]),
      if_neg (by omega)]
    simp only [hc]
  · intro pt hb hk hd hc
    have hval : decrypt_bthome ccm bindkey v0 data source_mac =
        ⟨.ok pt, true, some (decryptCall (bindkey.getD []) data source_mac)⟩ := by
      rw [decrypt_bthome, if_neg (by simp [hb]), if_neg (by simp [hb, hk]),
        if_neg (by omega)]
      simp only [hc]
    refine ⟨by rw [hval], by rw [hval], ?_⟩
    rw [parse_bthome, if_neg (by simp [plain_service_uuid, encrypted_service_uuid]),
      if_pos rfl]
    simp only [hval]

/-- Claim C6, witness: a 16-byte key, 15-byte payload and an oracle that
verifies and returns the empty plaintext: decryption succeeds, the flag is
set, and the (empty) plaintext is scanned, ending in a clean empty
parse. -/
theorem c6_witness :
    (decrypt_bthome (fun _ => some []) (some (List.replicate 16 0)) false
      (List.replicate 15 0) (List.replicate 6 0)).result = .ok [] ∧
    (decrypt_bthome (fun _ => some []) (some (List.replicate 16 0)) false
      (List.replicate 15 0) (List.replicate 6 0)).bindkey_verified = true ∧
    parse_bthome exampleRegistry (fun _ => some []) (some (List.replicate 16 0)) false
      (List.replicate 6 0) [encrypted_service_uuid] (List.replicate 15 0) =
      .done ⟨[], false, false⟩ true := by
  have h := (c6_decrypt_failure_and_flag exampleRegistry (fun _ => some [])
    (some (List.replicate 16 0)) false (List.replicate 15 0) (List.replicate 6 0)).2.2
    [] (by rfl) (by rfl) (by decide) rfl
  have hpp : parsePayload exampleRegistry [] = .ok ⟨[], false, false⟩ := by
    simp [parsePayload, parseLoop]
  refine ⟨h.1, h.2.1, ?_⟩
  rw [h.2.2, hpp]

/-- Claim C7: for every encrypted payload of length at least 15, 16-byte
key and 6-byte source MAC, the payload splits as
`data = ciphertext ++ counter ++ tag` with `ciphertext` all bytes except
the last 8, `counter` the bytes -8..-4 and `tag` the last 4 bytes, and the
AES-CCM invocation made by `_decrypt_bthome` carries exactly the 16-byte
key, the 12-byte nonce `source_mac ++ [0x1E, 0x18] ++ counter`, the single
associated-data byte `0x11`, and a 4-byte tag length. -/
theorem c7_ccm_call_shape (ccm : CCMOracle) (bindkey : Option (List Nat))
    (v0 : Bool) (data source_mac k : List Nat)
    (hb : bindkey = some k) (hk : k.length = 16) (hmac : source_mac.length = 6)
    (hd : 15 ≤ data.length) :
    ∃ ct ctr tag : List Nat,
      data = ct ++ ctr ++ tag ∧
      ct.length = data.length - 8 ∧ ctr.length = 4 ∧ tag.length = 4 ∧
      (decrypt_bthome ccm bindkey v0 data source_mac).call =
        some { key := k, nonce := source_mac ++ [0x1e, 0x18] ++ ctr, aad := [0x11],
               mac_len := 4, ciphertext := ct, tag := tag } ∧
      (source_mac ++ [0x1e, 0x18] ++ ctr).length = 12 := by
  subst hb
  have hkne : k ≠ [] := by
    intro h
    rw [h] at hk
    simp at hk
  have h48 : data.length - 8 + 4 = data.length - 4 := by omega
  have e1 : data.length - 4 - (data.length - 8) = 4 := by omega
  have e2 : data.length - (data.length - 4) = 4 := by omega
  have hinner : (data.drop (data.length - 8)).take 4 ++ data.drop (data.length - 4) =
      data.drop (data.length - 8) := by
    rw [← h48, ← List.drop_drop]
    exact List.take_append_drop 4 _
  refine ⟨pySlice data 0 (data.length - 8),
    pySlice data (data.length - 8) (data.length - 4),
    pySlice data (data.length - 4) data.length, ?_, ?_, ?_, ?_, ?_, ?_⟩
  · simp only [pySlice, List.drop_zero, Nat.sub_zero, e1, e2]
    rw [List.take_of_length_le (l := data.drop (data.length - 4)) (by simp; omega),
      List.append_assoc, hinner, List.take_append_drop]
  · simp [pySlice]
  · simp [pySlice]
    omega
  · simp [pySlice]
    omega
  · rw [decrypt_bthome, if_neg (by simp [bindkeyFalsy, hkne]),
      if_neg (by simp [bindkeyFalsy, hkne, hk]), if_neg (by omega)]
    cases hc : ccm (decryptCall ((some k).getD []) data source_mac) <;> simp only [hc] <;> rfl
  · simp only [List.length_append, List.length_cons, List.length_nil, pySlice,
      List.length_take, List.length_drop, hmac]
    omega

/-- Claim C7, witness: the split and call shape at a concrete 15-byte
payload, 16-byte key and 6-byte MAC. -/
theorem c7_witness :
    ∃ ct ctr tag : List Nat,
      List.range 15 = ct ++ ctr ++ tag ∧
      ct.length = (List.range 15).length - 8 ∧ ctr.length = 4 ∧ tag.length = 4 ∧
      (decrypt_bthome (fun _ => none) (some (List.replicate 16 0)) false
        (List.range 15) (List.replicate 6 0)).call =
        some { key := List.replicate 16 0,
               nonce := List.replicate 6 0 ++ [0x1e, 0x18] ++ ctr, aad := [0x11],
               mac_len := 4, ciphertext := ct, tag := tag } ∧
      (List.replicate 6 0 ++ [0x1e, 0x18] ++ ctr).length = 12 :=
  c7_ccm_call_shape (fun _ => none) (some (List.replicate 16 0)) false
    (List.range 15) (List.replicate 6 0) (List.replicate 16 0) rfl (by decide)
    (by decide) (by decide)

/-- Claim C8: for every byte span and positive factor `f`, `parse_uint`
interprets the bytes as a little-endian unsigned integer, multiplies by
`f`, and rounds the product to `decimal_places f` decimal places, where
`decimal_places f` is exactly `-⌊log₁₀ f⌋` (characterized below by
`10^(-dp) ≤ f < 10^(-dp+1)`): the result is an integer multiple of
`10^(-dp)` within half of `10^(-dp)` of the exact product.  `parse_uint`
is total, so it never fails on any span. -/
theorem c8_parse_uint_rounding (data : List Nat) (f : ℚ) (hf : 0 < f) :
    ((10 : ℚ) ^ (-(decimal_places f)) ≤ f ∧ f < (10 : ℚ) ^ (-(decimal_places f) + 1)) ∧
    (∃ m : ℤ, parse_uint data f = (m : ℚ) / 10 ^ (decimal_places f)) ∧
    |parse_uint data f - (leBytes data : ℚ) * f| ≤ 1 / (2 * 10 ^ (decimal_places f)) := by
  have habs : |f| = f := abs_of_pos hf
  have hlog : -(decimal_places f) = Int.log 10 f := by
    rw [decimal_places, habs, neg_neg]
  have hcast : ((10 : ℕ) : ℚ) = (10 : ℚ) := by norm_num
  refine ⟨⟨?_, ?_⟩, ?_, ?_⟩
  · rw [hlog]
    have h := Int.zpow_log_le_self (b := 10) (r := f) (by norm_num) hf
    rwa [hcast] at h
  · rw [hlog]
    have h := Int.lt_zpow_succ_log_self (b := 10) (by norm_num) f
    rwa [hcast] at h
  · exact ⟨roundHalfEven ((leBytes data : ℚ) * f * 10 ^ decimal_places f), rfl⟩
  · have hpow : (0 : ℚ) < 10 ^ decimal_places f := zpow_pos (by norm_num) _
    have hb := abs_roundHalfEven_sub_le ((leBytes data : ℚ) * f * 10 ^ decimal_places f)
    have heq : parse_uint data f - (leBytes data : ℚ) * f =
        ((roundHalfEven ((leBytes data : ℚ) * f * 10 ^ decimal_places f) : ℚ) -
          (leBytes data : ℚ) * f * 10 ^ decimal_places f) / 10 ^ decimal_places f := by
      rw [parse_uint, roundToPlaces]
      field_simp
      ring
    rw [heq, abs_div, abs_of_pos hpow, div_le_iff₀ hpow]
    calc |(roundHalfEven ((leBytes data : ℚ) * f * 10 ^ decimal_places f) : ℚ) -
          (leBytes data : ℚ) * f * 10 ^ decimal_places f| ≤ 1 / 2 := hb
    _ = 1 / (2 * 10 ^ decimal_places f) * 10 ^ decimal_places f := by
        field_simp

/-- Claim C8, witness: the rounding law at factor 0.01 and bytes `C4 09`
(little-endian raw value 2500), whose scaled, rounded value is exactly
25. -/
theorem c8_witness :
    (0 : ℚ) < 100⁻¹ ∧
    parse_uint [0xC4, 0x09] (100⁻¹ : ℚ) = 25 ∧
    leBytes [0xC4, 0x09] = 2500 ∧
    (∃ m : ℤ, parse_uint [0xC4, 0x09] (100⁻¹ : ℚ) =
      (m : ℚ) / 10 ^ decimal_places (100⁻¹ : ℚ)) ∧
    |parse_uint [0xC4, 0x09] (100⁻¹ : ℚ) - (leBytes [0xC4, 0x09] : ℚ) * (100⁻¹ : ℚ)| ≤
      1 / (2 * 10 ^ decimal_places (100⁻¹ : ℚ)) :=
  ⟨by norm_num, parse_uint_scenario, by norm_num [leBytes],
    (c8_parse_uint_rounding [0xC4, 0x09] (100⁻¹ : ℚ) (by norm_num)).2.1,
    (c8_parse_uint_rounding [0xC4, 0x09] (100⁻¹ : ℚ) (by norm_num)).2.2⟩
